import Mathlib

/-!
Shallow embedding of the duplicate-detection and issue-correlation core of
`aitest.py` (security-news sender).  Python strings are modelled as Lean
`String`; Python `set` values as `Finset String`; the regex character classes
`\w`, `\s`, `[가-힣]`, `[a-zA-Z]`, `\d` are modelled over the character
repertoire actually processed by the script (ASCII plus Hangul syllables).
Floating-point threshold comparisons (`x/y < 0.3`, `x/y >= threshold`) are
modelled over `ℚ`; for the rational values occurring in the program
(`3/10`, `2/5`) the double rounding in Python never flips these comparisons,
so the rational model is exact.
-/

namespace Aitest

/-! ### Character classes (Python `re` classes over ASCII + Hangul) -/

def isHangul (c : Char) : Bool := 0xAC00 ≤ c.toNat && c.toNat ≤ 0xD7A3

def isAsciiUpperC (c : Char) : Bool := 'A' ≤ c && c ≤ 'Z'

def isAsciiLowerC (c : Char) : Bool := 'a' ≤ c && c ≤ 'z'

def isAsciiAlphaC (c : Char) : Bool := isAsciiUpperC c || isAsciiLowerC c

def isDigitC (c : Char) : Bool := '0' ≤ c && c ≤ '9'

/-- Python `\w` (word character) restricted to the ASCII/Hangul repertoire. -/
def isWordCharC (c : Char) : Bool :=
  isAsciiUpperC c || isAsciiLowerC c || isDigitC c || c = '_' || isHangul c

/-- Python `\s` (ASCII fragment). -/
def pySpaceC (c : Char) : Bool :=
  c = ' ' || c = '\t' || c = '\n' || c = '\x0d' || c = '\x0b' || c = '\x0c'

/-- Python `str.lower` (ASCII fragment; Hangul has no case). -/
def pyLowerChar (c : Char) : Char :=
  if isAsciiUpperC c then Char.ofNat (c.toNat + 32) else c

/-- Python `str.upper` (ASCII fragment). -/
def pyUpperChar (c : Char) : Char :=
  if isAsciiLowerC c then Char.ofNat (c.toNat - 32) else c

def pyLower (s : String) : String := ⟨s.data.map pyLowerChar⟩

def pyUpper (s : String) : String := ⟨s.data.map pyUpperChar⟩

/-- Python `str.strip()` (both ends, whitespace). -/
def pyStrip (s : String) : String :=
  ⟨((s.data.dropWhile pySpaceC).reverse.dropWhile pySpaceC).reverse⟩

/-! ### Substring test (Python `needle in haystack`) -/

def startsWithL : List Char → List Char → Bool
  | [], _ => true
  | _ :: _, [] => false
  | p :: ps, h :: hs => p = h && startsWithL ps hs

/-- Python substring membership `pat in hay`. -/
def containsSub (pat : List Char) : List Char → Bool
  | [] => pat.isEmpty
  | h :: hs => startsWithL pat (h :: hs) || containsSub pat hs

/-- Python `pat in hay` on strings. -/
def strContains (hay pat : String) : Bool := containsSub pat.data hay.data

/-- Python `s.startswith(pre)`. -/
def startsWithStr (s pre : String) : Bool := startsWithL pre.data s.data

/-- Python `s.endswith(suf)`. -/
def endsWithStr (s suf : String) : Bool := startsWithL suf.data.reverse s.data.reverse

/-! ### Maximal runs of a character class (Python `re.findall` of `[cls]+`) -/

def runsByAux (p : Char → Bool) : List Char → List Char → List (List Char)
  | acc, [] => if acc.isEmpty then [] else [acc.reverse]
  | acc, c :: cs =>
    if p c then runsByAux p (c :: acc) cs
    else if acc.isEmpty then runsByAux p [] cs
    else acc.reverse :: runsByAux p [] cs

/-- Maximal contiguous runs of characters satisfying `p`. -/
def runsBy (p : Char → Bool) (s : List Char) : List (List Char) := runsByAux p [] s

/-! ### `normalize_title` (aitest.py lines 219-225)

```python
def normalize_title(title):
    if not title:
        return ""
    normalized = re.sub(r'\s+', '', title.lower())
    normalized = re.sub(r'[^\w가-힣]', '', normalized)
    return normalized
```
Lower-case, then delete every character that is not a word character
(whitespace removal is subsumed: whitespace is not `\w`).  The `if not title`
guard returns `""`, which the general branch also yields on `""`. -/
def normalize_title (title : String) : String :=
  ⟨(title.data.map pyLowerChar).filter isWordCharC⟩

/-! ### `extract_keywords` (aitest.py lines 277-290)

```python
korean_words = re.findall(r'[가-힣]+', title)
english_words = re.findall(r'[a-zA-Z]{2,}', title)
numbers = re.findall(r'\d+', title)
keywords = set(korean_words + [w.lower() for w in english_words] + numbers)
```
-/
def extract_keywords (title : String) : Finset String :=
  let korean := runsBy isHangul title.data
  let english := ((runsBy isAsciiAlphaC title.data).filter (fun r => 2 ≤ r.length)).map
    (fun r => r.map pyLowerChar)
  let numbers := runsBy isDigitC title.data
  ((korean ++ english ++ numbers).map (fun r => (⟨r⟩ : String))).toFinset

example : extract_keywords ("TP-Link 라우터 보안 업데이트 권고") =
    ({("라우터"), ("보안"), ("업데이트"), ("권고"), ("tp"), ("link")} : Finset String) := by
  decide

/-! ### `extract_product_names` (aitest.py lines 316-364, inner helper of `is_similar_title`)

Three sources: (a) configured known vendor/product tokens matched in the
lower-cased title with an optional space-or-hyphen at each internal position;
(b) `re.findall(r'\b([A-Z][a-z]+(?:[- ][A-Z][a-z]+)*)\b', title)` capitalized
sequences; (c) `re.findall(r'\b([가-힣]{2,})\b', title)` Hangul words.  The
regex scans are embedded operationally: leftmost scan, greedy repetition, and
for the trailing `\b` of (b) the single backtracking step the regex engine can
take (dropping the last joined group, whose separator then satisfies `\b`;
shrinking the final `[a-z]+` run can never satisfy `\b`). -/

def known_products : List String :=
  [("tp-link"), ("tplink"), ("airoha"), ("adobe"), ("fortigate"), ("windows"), ("office"),
   ("microsoft"), ("cisco"), ("vmware"), ("trend micro"), ("hpe"), ("mongodb"), ("n8n"),
   ("telegram"), ("facebook"), ("instagram"), ("linkedin"), ("gemini"), ("google"),
   ("slack"), ("zoom")]

def common_words : List String :=
  [("제품"), ("보안"), ("업데이트"), ("권고"), ("취약점"), ("패치"), ("발견"), ("수정"),
   ("발표"), ("공개")]

/-- Pattern units of a known product: `none` is the regex `[\s-]?` that the code
substitutes for a space or a hyphen, `some c` a literal character. -/
def unitsOfProduct (p : String) : List (Option Char) :=
  p.data.map (fun c => if c = ' ' || c = '-' then none else some c)

def matchUnits : List (Option Char) → List Char → Bool
  | [], _ => true
  | some _ :: _, [] => false
  | some c :: us, h :: hs => c = h && matchUnits us hs
  | none :: us, hs =>
    (match hs with
     | h :: hs2 => (pySpaceC h || h = '-') && matchUnits us hs2
     | [] => false) || matchUnits us hs

/-- `re.search` of the known-product pattern: match at some position. -/
def searchUnits (us : List (Option Char)) : List Char → Bool
  | [] => matchUnits us []
  | h :: t => matchUnits us (h :: t) || searchUnits us t

def takeLowerRun (l : List Char) : List Char := l.takeWhile isAsciiLowerC

def dropLowerRun (l : List Char) : List Char := l.dropWhile isAsciiLowerC

/-- Greedy parse of `(?:[- ][A-Z][a-z]+)*` groups; returns the parsed
`(separator, capital, lowercase-run)` triples and the remaining input.
`fuel` dominates the input length, so it never runs out for the callers. -/
def parseGroupsF : Nat → List Char → (List (Char × Char × List Char) × List Char)
  | 0, l => ([], l)
  | _ + 1, [] => ([], [])
  | _ + 1, [c] => ([], [c])
  | fuel + 1, s :: u :: ls =>
    if (s = '-' || s = ' ') && isAsciiUpperC u &&
        (match ls with | [] => false | c :: _ => isAsciiLowerC c) then
      let run := takeLowerRun ls
      let rest0 := dropLowerRun ls
      let (gs, rest) := parseGroupsF fuel rest0
      ((s, u, run) :: gs, rest)
    else ([], s :: u :: ls)

def groupChars (g : Char × Char × List Char) : List Char := g.1 :: g.2.1 :: g.2.2

/-- Head of a list fails the word-boundary test iff it is a word character. -/
def boundaryAfter : List Char → Bool
  | [] => true
  | c :: _ => ¬ isWordCharC c

/-- One attempted match of `[A-Z][a-z]+(?:[- ][A-Z][a-z]+)*\b` starting at an
uppercase `c` (already known to sit at a `\b`); `cs` is the rest of the input.
Returns the matched token and the remaining input, or `none`. -/
def capToken (c : Char) (cs : List Char) : Option (List Char × List Char) :=
  match cs with
  | [] => none
  | d :: _ =>
    if ¬ isAsciiLowerC d then none
    else
      let run := takeLowerRun cs
      let rest0 := dropLowerRun cs
      let (gs, rest) := parseGroupsF rest0.length rest0
      let core := c :: run
      if boundaryAfter rest then some (core ++ (gs.map groupChars).flatten, rest)
      else
        match gs.getLast? with
        | none => none
        | some last => some (core ++ ((gs.dropLast).map groupChars).flatten, groupChars last ++ rest)

/-- Left-to-right non-overlapping scan of the capitalized-sequence regex.
`prev` is the character before the current position (for `\b`). -/
def capsScan : Nat → Option Char → List Char → List (List Char)
  | 0, _, _ => []
  | _ + 1, _, [] => []
  | fuel + 1, prev, c :: cs =>
    let boundary : Bool := match prev with | none => true | some p => ¬ isWordCharC p
    if boundary && isAsciiUpperC c then
      match capToken c cs with
      | some (tok, rest) => tok :: capsScan fuel (some (tok.getLastD c)) rest
      | none => capsScan fuel (some c) cs
    else capsScan fuel (some c) cs

def capitalizedSeqs (s : List Char) : List String :=
  (capsScan (s.length + 1) none s).map (fun l => (⟨l⟩ : String))

/-- `re.findall(r'\b([가-힣]{2,})\b', title)`: a maximal word-character run
matches iff it is entirely Hangul and has length at least 2 (interior
positions of a word run are never boundaries). -/
def koreanWords (s : List Char) : List String :=
  (((runsBy isWordCharC s).filter (fun r => r.all isHangul && 2 ≤ r.length)).map
    (fun r => (⟨r⟩ : String)))

def dropSpaceHyphen (s : String) : String :=
  ⟨s.data.filter (fun c => ¬ (c = ' ' || c = '-'))⟩

def extract_product_names (title : String) : Finset String :=
  let tl := pyLower title
  let fromKnown := (known_products.filter (fun p => searchUnits (unitsOfProduct p) tl.data)).map
    (fun p => pyLower (dropSpaceHyphen p))
  let fromCaps := ((capitalizedSeqs title.data).map (fun w => pyLower (dropSpaceHyphen w))).filter
    (fun n => 2 ≤ n.length && ¬ common_words.contains n)
  let fromKorean := (koreanWords title.data).filter (fun w => ¬ common_words.contains w)
  (fromKnown ++ fromCaps ++ fromKorean).toFinset

example : extract_product_names ("TP-Link 라우터 보안 업데이트 권고") =
    ({("tplink"), ("link"), ("라우터")} : Finset String) := by decide

example : extract_product_names ("Adobe Reader 보안 업데이트 권고") =
    ({("adobe"), ("adobereader")} : Finset String) := by decide

example : extract_product_names ("Abc-Defg9 테스트") =
    ({("abc"), ("테스트")} : Finset String) := by decide

example : extract_product_names ("abc가나다 Xy 권고Test") = ({("xy")} : Finset String) := by
  decide

example : extract_product_names ("Trend Micro Alert") =
    ({("trendmicro"), ("trendmicroalert")} : Finset String) := by decide

/-! ### `is_similar_title` (aitest.py lines 292-384) -/

/-- Length-ratio fallback when a keyword set is empty:
`abs(len(norm1)-len(norm2)) / max(len(norm1), len(norm2)) < 0.3`. -/
def lenRatioSimilar (n1 n2 : String) : Bool :=
  if n1 = "" ∨ n2 = "" then false
  else decide (mkRat (((n1.length : ℤ) - (n2.length : ℤ)).natAbs : ℤ)
    (max n1.length n2.length) < mkRat 3 10)

/-- `len(intersection) / len(union) >= threshold` (with the dead
`if not union` guard kept). -/
def jaccardGE (k1 k2 : Finset String) (threshold : ℚ) : Bool :=
  if k1 ∪ k2 = ∅ then false
  else decide (mkRat ((k1 ∩ k2).card : ℤ) ((k1 ∪ k2).card) ≥ threshold)

def is_similar_title (title1 title2 : String) (threshold : ℚ) : Bool :=
  if title1 = "" ∨ title2 = "" then false
  else if title1 = title2 then true
  else if extract_keywords title1 = ∅ ∨ extract_keywords title2 = ∅ then
    lenRatioSimilar (normalize_title title1) (normalize_title title2)
  else if extract_product_names title1 ≠ ∅ ∧ extract_product_names title2 ≠ ∅ ∧
      extract_product_names title1 ∩ extract_product_names title2 = ∅ then false
  else jaccardGE (extract_keywords title1) (extract_keywords title2) threshold

/-- Default threshold of `is_similar_title` (0.4). -/
def batchThreshold : ℚ := mkRat 2 5

/-- Looser threshold used for the already-sent comparison (0.3). -/
def sentThreshold : ℚ := mkRat 3 10

/-- The executable `mkRat` comparisons above are exactly the rational
divisions of the source (`mkRat n d = n / d`). -/
theorem jaccardGE_eq_div (k1 k2 : Finset String) (t : ℚ) (h : k1 ∪ k2 ≠ ∅) :
    jaccardGE k1 k2 t = decide ((((k1 ∩ k2).card : ℚ) / ((k1 ∪ k2).card : ℚ)) ≥ t) := by
  simp only [jaccardGE, if_neg h, Rat.mkRat_eq_div, Int.cast_natCast]

example : is_similar_title ("TP-Link 라우터 보안 업데이트 권고")
    ("Adobe Reader 보안 업데이트 권고") batchThreshold = false := by decide

example : is_similar_title ("서버 점검 결과 공유 하나") ("서버 점검 결과 공유 둘째")
    batchThreshold = true := by decide

example : is_similar_title ("교원 해킹 사고, 개인정보 유출")
    ("교원 랜섬웨어 공격으로 정보유출 발생") batchThreshold = false := by decide

example : is_similar_title ("ab") ("ab") batchThreshold = true := by decide

example : is_similar_title ("") ("") batchThreshold = false := by decide

example : is_similar_title ("!!") ("!!!") batchThreshold = false := by decide

example : is_similar_title ("기사 하나") ("기사 둘") sentThreshold = true := by decide

/-! ### `normalize_url` (aitest.py lines 227-275)

Embeds the fragment of `urllib.parse` the function exercises: `urlparse`
(scheme / netloc / path / params / query / fragment splitting), `parse_qs`
(with its defaults: `&`-separated, blank values dropped), `urlencode` with
`doseq=True` over the key-sorted items, and `urlunparse`.  `urlparse` raising
(bracketed netloc) is modelled as `none`, which sends `normalize_url` to the
source's `except` fallback. -/

def utf8EncodeChar (c : Char) : List Nat :=
  let v := c.toNat
  if v < 0x80 then [v]
  else if v < 0x800 then [0xC0 + v / 64, 0x80 + v % 64]
  else if v < 0x10000 then [0xE0 + v / 4096, 0x80 + (v / 64) % 64, 0x80 + v % 64]
  else [0xF0 + v / 262144, 0x80 + (v / 4096) % 64, 0x80 + (v / 64) % 64, 0x80 + v % 64]

def replChar : Char := Char.ofNat 0xFFFD

def isContByte (b : Nat) : Bool := 0x80 ≤ b && b < 0xC0

def mkDecodedChar (lo : Nat) (v : Nat) : Char :=
  if lo ≤ v && (v < 0xD800 || (0xE000 ≤ v && v < 0x110000)) then Char.ofNat v else replChar

/-- UTF-8 decoding with replacement of invalid sequences (Python
`bytes.decode('utf-8', errors='replace')`, one replacement per bad byte). -/
def utf8DecodeF : Nat → List Nat → List Char
  | 0, _ => []
  | _ + 1, [] => []
  | fuel + 1, b :: bs =>
    if b < 0x80 then Char.ofNat b :: utf8DecodeF fuel bs
    else if b < 0xC0 then replChar :: utf8DecodeF fuel bs
    else if b < 0xE0 then
      match bs with
      | b1 :: bs1 =>
        if isContByte b1 then
          mkDecodedChar 0x80 ((b - 0xC0) * 64 + (b1 - 0x80)) :: utf8DecodeF fuel bs1
        else replChar :: utf8DecodeF fuel bs
      | [] => [replChar]
    else if b < 0xF0 then
      match bs with
      | b1 :: b2 :: bs2 =>
        if isContByte b1 && isContByte b2 then
          mkDecodedChar 0x800 ((b - 0xE0) * 4096 + (b1 - 0x80) * 64 + (b2 - 0x80)) ::
            utf8DecodeF fuel bs2
        else replChar :: utf8DecodeF fuel bs
      | _ => replChar :: utf8DecodeF fuel bs
    else
      match bs with
      | b1 :: b2 :: b3 :: bs3 =>
        if isContByte b1 && isContByte b2 && isContByte b3 then
          mkDecodedChar 0x10000
            ((b - 0xF0) * 262144 + (b1 - 0x80) * 4096 + (b2 - 0x80) * 64 + (b3 - 0x80)) ::
            utf8DecodeF fuel bs3
        else replChar :: utf8DecodeF fuel bs
      | _ => replChar :: utf8DecodeF fuel bs

def utf8Decode (bs : List Nat) : List Char := utf8DecodeF (bs.length + 1) bs

/-- Characters `urllib.parse.quote_plus` leaves unescaped. -/
def isUrlSafeC (c : Char) : Bool :=
  isAsciiAlphaC c || isDigitC c || c = '_' || c = '.' || c = '-' || c = '~'

def hexDigitU (n : Nat) : Char :=
  if n < 10 then Char.ofNat (48 + n) else Char.ofNat (55 + n)

/-- `urllib.parse.quote_plus`. -/
def quote_plus (s : String) : String :=
  ⟨(s.data.map (fun c =>
    if isUrlSafeC c then [c]
    else if c = ' ' then ['+']
    else (utf8EncodeChar c).flatMap
      (fun b => ['%', hexDigitU (b / 16), hexDigitU (b % 16)]))).flatten⟩

def hexVal (c : Char) : Option Nat :=
  if isDigitC c then some (c.toNat - 48)
  else if 'A' ≤ c && c ≤ 'F' then some (c.toNat - 55)
  else if 'a' ≤ c && c ≤ 'f' then some (c.toNat - 87)
  else none

/-- Percent-decoding to bytes (`%XY` consumed when both digits are hex,
the surrounding text re-encoded as UTF-8). -/
def percentBytesF : Nat → List Char → List Nat
  | 0, _ => []
  | _ + 1, [] => []
  | fuel + 1, c :: rest =>
    if c = '%' then
      match rest with
      | h1 :: h2 :: rest2 =>
        match hexVal h1, hexVal h2 with
        | some a, some b => (16 * a + b) :: percentBytesF fuel rest2
        | _, _ => utf8EncodeChar c ++ percentBytesF fuel rest
      | _ => utf8EncodeChar c ++ percentBytesF fuel rest
    else utf8EncodeChar c ++ percentBytesF fuel rest

/-- `urllib.parse.unquote_plus`. -/
def unquote_plus (s : String) : String :=
  let plusToSpace := s.data.map (fun c => if c = '+' then ' ' else c)
  ⟨utf8Decode (percentBytesF (plusToSpace.length + 1) plusToSpace)⟩

def splitOnChar (sep : Char) : List Char → List (List Char)
  | [] => [[]]
  | c :: cs =>
    match splitOnChar sep cs with
    | [] => [[]]
    | p :: ps => if c = sep then [] :: p :: ps else (c :: p) :: ps

def splitFirst (sep : Char) : List Char → List Char × Option (List Char)
  | [] => ([], none)
  | c :: cs =>
    if c = sep then ([], some cs)
    else
      let r := splitFirst sep cs
      (c :: r.1, r.2)

/-- `urllib.parse.parse_qsl` with the call's defaults: separator `&`, pairs
without `=` skipped, blank values skipped (`keep_blank_values=False`). -/
def parse_qsl (q : List Char) : List (String × String) :=
  (splitOnChar '&' q).filterMap (fun piece =>
    if piece.isEmpty then none
    else
      match splitFirst '=' piece with
      | (_, none) => none
      | (n, some v) =>
        if v.isEmpty then none
        else some (unquote_plus (⟨n⟩ : String), unquote_plus (⟨v⟩ : String)))

def addPair : List (String × List String) → String × String → List (String × List String)
  | [], p => [(p.1, [p.2])]
  | q :: qs, p => if q.1 = p.1 then (q.1, q.2 ++ [p.2]) :: qs else q :: addPair qs p

/-- `urllib.parse.parse_qs`: grouped by key, insertion-ordered. -/
def parse_qs (q : String) : List (String × List String) := (parse_qsl q.data).foldl addPair []

def keyLt : List Char → List Char → Bool
  | [], [] => false
  | [], _ :: _ => true
  | _ :: _, [] => false
  | x :: xs, y :: ys => x.toNat < y.toNat || (x = y && keyLt xs ys)

def insSorted (p : String × List String) : List (String × List String) →
    List (String × List String)
  | [] => [p]
  | q :: qs => if keyLt p.1.data q.1.data then p :: q :: qs else q :: insSorted p qs

/-- `sorted(query_params.items())` (keys are unique, so key order decides). -/
def sortPairs (l : List (String × List String)) : List (String × List String) :=
  l.foldr insSorted []

/-- `urlencode(sorted(...), doseq=True)`. -/
def urlencodeSorted (l : List (String × List String)) : String :=
  String.intercalate ("&") ((sortPairs l).flatMap
    (fun kv => kv.2.map (fun v => quote_plus kv.1 ++ ("=") ++ quote_plus v)))

structure ParsedUrl where
  scheme : String
  netloc : String
  path : String
  params : String
  query : String
  fragment : String
deriving DecidableEq

def schemeChar (c : Char) : Bool := isAsciiAlphaC c || isDigitC c || c = '+' || c = '-' || c = '.'

/-- CPython removes `\t\r\n` everywhere and strips C0-control-or-space from
both ends before splitting. -/
def urlClean (s : List Char) : List Char :=
  let noUnsafe := s.filter (fun c => ¬ (c = '\t' || c = '\x0d' || c = '\n'))
  ((noUnsafe.dropWhile (fun c => c.toNat ≤ 0x20)).reverse.dropWhile
    (fun c => c.toNat ≤ 0x20)).reverse

def splitScheme (l : List Char) : String × List Char :=
  match l.findIdx? (fun c => c = ':') with
  | some i =>
    if 0 < i && (match l.head? with
        | some c0 => isAsciiAlphaC c0
        | none => false) && (l.take i).all schemeChar then
      ((⟨(l.take i).map pyLowerChar⟩ : String), l.drop (i + 1))
    else (("" : String), l)
  | none => (("" : String), l)

def splitNetloc : List Char → String × List Char
  | '/' :: '/' :: rest =>
    ((⟨rest.takeWhile (fun c => ¬ (c = '/' || c = '?' || c = '#'))⟩ : String),
      rest.dropWhile (fun c => ¬ (c = '/' || c = '?' || c = '#')))
  | l => (("" : String), l)

/-- `urllib.parse._splitparams`: split `;params` off the last path segment. -/
def splitParams (path : List Char) : List Char × List Char :=
  if path.contains '/' then
    let revSlash := (path.reverse.findIdx? (fun c => c = '/')).getD 0
    let pos := path.length - 1 - revSlash
    let pre := path.take pos
    let seg := path.drop pos
    match splitFirst ';' seg with
    | (_, none) => (path, [])
    | (a, some b) => (pre ++ a, b)
  else
    match splitFirst ';' path with
    | (_, none) => (path, [])
    | (a, some b) => (a, b)

/-- `urllib.parse.urlparse`; `none` models the `ValueError` on bracketed
netlocs (the source's `except` then takes over). -/
def pyUrlparse (s : String) : Option ParsedUrl :=
  let l := urlClean s.data
  let sr := splitScheme l
  let nr := splitNetloc sr.2
  if (nr.1.data.contains '[' || nr.1.data.contains ']') then none
  else
    let fr := splitFirst '#' nr.2
    let qr := splitFirst '?' fr.1
    let pp := splitParams qr.1
    some ⟨sr.1, nr.1, (⟨pp.1⟩ : String), (⟨pp.2⟩ : String),
      (⟨(qr.2.getD [])⟩ : String), (⟨(fr.2.getD [])⟩ : String)⟩

/-- `urllib.parse.urlunparse` for the call in `normalize_url` (fragment
already cleared, scheme and params taken from the parse). -/
def unparseUrl (p : ParsedUrl) (domain : String) (path : String) (query : String) : String :=
  let url1 := if p.params = "" then path else path ++ (";") ++ p.params
  let url2 :=
    if domain ≠ "" ∨ (url1 ≠ "" ∧ startsWithStr url1 ("//")) then
      ("//") ++ domain ++
        (if url1 ≠ "" ∧ ¬ startsWithStr url1 ("/") then ("/") ++ url1 else url1)
    else url1
  let url3 := if p.scheme ≠ "" then p.scheme ++ (":") ++ url2 else url2
  if query ≠ "" then url3 ++ ("?") ++ query else url3

def rstripSlash (s : String) : String :=
  ⟨(s.data.reverse.dropWhile (fun c => c = '/')).reverse⟩

/-- `domain.startswith(prefix)` loop over
`{'m.': '', 'mobile.': '', 'www.m.': 'www.'}` with replace-first and break. -/
def mobileStrip (d : String) : String :=
  if startsWithStr d ("m.") then (⟨d.data.drop 2⟩ : String)
  else if startsWithStr d ("mobile.") then (⟨d.data.drop 7⟩ : String)
  else if startsWithStr d ("www.m.") then ("www.") ++ (⟨d.data.drop 6⟩ : String)
  else d

def utm_params : List String :=
  [("utm_source"), ("utm_medium"), ("utm_campaign"), ("utm_term"), ("utm_content"),
   ("fbclid"), ("gclid")]

def normalize_url (url : String) : String :=
  if url = "" then ""
  else
    match pyUrlparse (pyStrip url) with
    | none =>
      let u := pyLower (pyStrip url)
      if endsWithStr u ("/") ∧ 1 < u.length then rstripSlash u else u
    | some p =>
      let domain := mobileStrip (pyLower p.netloc)
      let path := if p.path = "/" then ("/") else rstripSlash p.path
      let qp := (parse_qs p.query).filter (fun kv => ¬ utm_params.contains kv.1)
      let sortedQuery := if qp.isEmpty then ("" : String) else urlencodeSorted qp
      pyLower (unparseUrl p domain path sortedQuery)

example : normalize_url ("http://m.m.com") = ("http://m.com") := by decide

example : normalize_url ("http://m.com") = ("http://com") := by decide

example : normalize_url ("http://example.com/news?id=7&b=2&a=1") =
    ("http://example.com/news?a=1&b=2&id=7") := by decide

example : normalize_url ("http://example.com/news?id=7&a=1&b=2") =
    ("http://example.com/news?a=1&b=2&id=7") := by decide

example : normalize_url ("http://m.Example.com/Path/?utm_source=x&b=2&a=1#frag") =
    ("http://example.com/path?a=1&b=2") := by decide

example : normalize_url ("HTTPS://WWW.M.Site.COM/a/b/") = ("https://www.site.com/a/b") := by
  decide

example : normalize_url ("plain text url") = ("plain text url") := by decide

example : normalize_url ("http://ex.com/p?a=1&a=2&b") = ("http://ex.com/p?a=1&a=2") := by decide

example : normalize_url ("http://ex.com/p;params?x=2") = ("http://ex.com/p;params?x=2") := by
  decide

example : normalize_url ("http://example.com/") = ("http://example.com/") := by decide

example : normalize_url ("http://a.com/1") = ("http://a.com/1") := by decide

/-! ### Data model of the pipeline (`process_articles_ai_driven`, aitest.py 1192-1608)

An `Entry` is a fetched feed record: `entry_ts` (lines 181-186) is embedded as
the `ts` field (unix seconds, 0 when the feed has no date), the feed's
`id`/`guid` fallback as a single `id` field.  A `Judgment` is the parsed AI
response; the only fields the dedup/correlation logic reads are `decision`,
`CVE_IDs`, `products_affected` and `tags` (the comma-separated string form of
the latter three is normalized to a list at lines 1489-1492/1513-1516, so the
model carries lists).  A first- or second-stage classifier call is an oracle
`Entry → Option Judgment`; `none` is a failed call (falsy return or, for the
second stage, a raised exception). -/

structure Entry where
  title : String
  link : String
  id : String
  ts : Int
deriving DecidableEq

/-- `entry_uid` (aitest.py 170-179): the link, else the feed id/guid, else
the raw title. -/
def entry_uid (e : Entry) : String :=
  if e.link ≠ "" then e.link else if e.id ≠ "" then e.id else e.title

structure Judgment where
  decision : String
  cve_ids : List String
  products_affected : List String
  tags : List String
deriving DecidableEq

/-- `should_send_article_ai_driven` (aitest.py 780-828): send iff the decision
is SCRAPE or WATCHLIST; SKIP, unrecognized values — and a missing `decision`
key, which behaves like any unrecognized value — are filtered. -/
def should_send_article_ai_driven (j : Judgment) : Bool :=
  if j.decision = ("SCRAPE") then true
  else if j.decision = ("WATCHLIST") then true
  else false

/-! ### Configured token lists (aitest.py 1287-1288, 1318-1324, 1465-1466, 1529) -/

def korean_companies : List String :=
  [("교원"), ("카카오"), ("네이버"), ("삼성"), ("LG"), ("SK"), ("현대"), ("기아"),
   ("롯데"), ("한화"), ("두산"), ("포스코"), ("KT"), ("신한"), ("라인"), ("쿠팡")]

def security_keywords : List String :=
  [("해킹"), ("랜섬웨어"), ("정보유출"), ("침해"), ("공격"), ("사고"), ("유출")]

def product_keywords : List (String × List String) :=
  [(("windows"), [("windows"), ("윈도우"), ("마이크로소프트"), ("ms"), ("microsoft")]),
   (("office"), [("office"), ("오피스"), ("office 365"), ("microsoft office")]),
   (("adobe reader"), [("adobe reader"), ("어도비 리더"), ("adobe acrobat reader")]),
   (("fortigate"), [("fortigate"), ("포티게이트"), ("fortios")])]

def update_keywords_batch : List String :=
  [("패치"), ("업데이트"), ("보안 업데이트"), ("취약점"), ("패치 화요일"), ("보안 위협"),
   ("보안 권고"), ("cve")]

/-- The pre-send variant additionally contains `vulnerability` (line 1529). -/
def update_keywords_sent : List String :=
  [("패치"), ("업데이트"), ("보안 업데이트"), ("취약점"), ("패치 화요일"), ("보안 위협"),
   ("보안 권고"), ("cve"), ("vulnerability")]

def hasAnyKeyword (tl : String) (kws : List String) : Bool :=
  kws.any (fun k => strContains tl k)

/-! ### Batch-internal consolidation (aitest.py 1266-1354)

For the entry at position `i` only entries at positions `j > i` are examined
(`if i >= j: continue`), so the scan of each entry is a scan of its suffix. -/

/-- First batch check (lines 1271-1281): a strictly later similar entry with a
strictly greater timestamp (equal titles skipped). -/
def similarNewerLater (e : Entry) (later : List Entry) : Bool :=
  later.any (fun o =>
    decide (e.title ≠ o.title) && is_similar_title e.title o.title batchThreshold &&
      decide (e.ts < o.ts))

/-- Same-company rule for one company token (lines 1290-1312). -/
def companyFiresBatch (company : String) (e : Entry) (later : List Entry) : Bool :=
  let tl := pyLower e.title
  strContains tl company && later.any (fun o =>
    let ol := pyLower o.title
    strContains ol company && hasAnyKeyword tl security_keywords &&
      hasAnyKeyword ol security_keywords && decide (e.ts < o.ts))

/-- Same-product rule for one product group (lines 1317-1351). -/
def productFiresBatch (names : List String) (e : Entry) (later : List Entry) : Bool :=
  let tl := pyLower e.title
  hasAnyKeyword tl names && later.any (fun o =>
    let ol := pyLower o.title
    hasAnyKeyword ol names && hasAnyKeyword tl update_keywords_batch &&
      hasAnyKeyword ol update_keywords_batch && decide (e.ts < o.ts))

def isDuplicateInBatch (e : Entry) (later : List Entry) : Bool :=
  similarNewerLater e later ||
  korean_companies.any (fun c => companyFiresBatch c e later) ||
  product_keywords.any (fun pk => productFiresBatch pk.2 e later)

/-- Stage 2 (lines 1266-1354): keep each entry unless one of the three rules
fires against a later entry. -/
def batchDedup : List Entry → List Entry
  | [] => []
  | e :: rest => if isDuplicateInBatch e rest then batchDedup rest else e :: batchDedup rest

/-! ### Pre-send duplicate check against the run's sent ledger (aitest.py 1443-1549) -/

/-- Same-company rule against one sent entry (lines 1464-1478); note the
`<=` timestamp comparison, unlike the batch rule's `<`. -/
def companyFiresSent (company : String) (e se : Entry) : Bool :=
  let tl := pyLower e.title
  let stl := pyLower se.title
  strContains tl company && strContains stl company &&
    hasAnyKeyword tl security_keywords && hasAnyKeyword stl security_keywords &&
    decide (e.ts ≤ se.ts)

/-- `set([c.upper() for c in cves])` (line 1496). -/
def upperSet (l : List String) : Finset String := (l.map pyUpper).toFinset

/-- `[p.lower().strip() for p in products]` made a set (lines 1521-1525). -/
def normProductSet (l : List String) : Finset String :=
  (l.map (fun p => pyStrip (pyLower p))).toFinset

/-- `any("vulnerability" in str(tag).lower() or "cve" in str(tag).lower())`
(lines 1536-1537). -/
def vulnTagged (tags : List String) : Bool :=
  tags.any (fun t => strContains (pyLower t) ("vulnerability") ||
    strContains (pyLower t) ("cve"))

/-- CVE rule (lines 1485-1505): both CVE lists non-empty, case-insensitive
intersection non-empty, and `abs(ts - sent_ts) < 604800`. -/
def cveRuleFires (e : Entry) (j : Judgment) (se : Entry) (sj : Judgment) : Bool :=
  decide (j.cve_ids ≠ []) && decide (sj.cve_ids ≠ []) &&
    decide (upperSet j.cve_ids ∩ upperSet sj.cve_ids ≠ ∅) &&
    decide ((e.ts - se.ts).natAbs < 604800)

/-- Product rule (lines 1507-1547). -/
def productRuleFires (e : Entry) (j : Judgment) (se : Entry) (sj : Judgment) : Bool :=
  let tl := pyLower e.title
  let stl := pyLower se.title
  decide (j.products_affected ≠ []) && decide (sj.products_affected ≠ []) &&
    decide (normProductSet j.products_affected ∩ normProductSet sj.products_affected ≠ ∅) &&
    ((hasAnyKeyword tl update_keywords_sent && hasAnyKeyword stl update_keywords_sent) ||
      (vulnTagged j.tags && vulnTagged sj.tags)) &&
    decide ((e.ts - se.ts).natAbs < 604800)

/-- Decision of the `for sent_entry_data in sent_entries` loop body for one
ledger element, checks in source order with first-match short-circuit. -/
def check_sent_duplicate (cand : Entry × Judgment) (sent : Entry × Judgment) : Bool :=
  if cand.1.title = sent.1.title then true
  else if is_similar_title cand.1.title sent.1.title sentThreshold then true
  else if korean_companies.any (fun c => companyFiresSent c cand.1 sent.1) then true
  else if cveRuleFires cand.1 cand.2 sent.1 sent.2 then true
  else productRuleFires cand.1 cand.2 sent.1 sent.2

def isDuplicateSent (cand : Entry × Judgment) (ledger : List (Entry × Judgment)) : Bool :=
  ledger.any (fun s => check_sent_duplicate cand s)

/-! ### The run pipeline -/

/-- Persisted seen-state (`state.aitest.json`): `seen`, `seen_titles`,
`seen_links`, `sent_links` are Python sets; `seen_original_titles` an ordered
list. -/
structure SeenState where
  seen : Finset String
  seen_titles : Finset String
  seen_original_titles : List String
  seen_links : Finset String
  sent_links : Finset String
deriving DecidableEq

/-- Stage 1 history filter (lines 1222-1257): keep an entry unless its
normalized link, uid, normalized title, or a fuzzy title match is known. -/
def stage1Keep (st : SeenState) (e : Entry) : Bool :=
  let linkDup := decide (e.link ≠ "") && decide (normalize_url e.link ≠ "") &&
    decide (normalize_url e.link ∈ st.seen_links)
  let uidDup := decide (entry_uid e ≠ "") && decide (entry_uid e ∈ st.seen)
  let titleDup := decide (normalize_title e.title ≠ "") &&
    decide (normalize_title e.title ∈ st.seen_titles)
  let simDup := st.seen_original_titles.any
    (fun t => is_similar_title e.title t batchThreshold)
  !(linkDup || uidDup || titleDup || simDup)

def candidateEntries (st : SeenState) (recent : List Entry) : List Entry :=
  recent.filter (stage1Keep st)

def finalEntries (st : SeenState) (recent : List Entry) : List Entry :=
  batchDedup (candidateEntries st recent)

/-- Mutable state of the first-pass loop (lines 1360-1409). -/
structure FirstPassState where
  seen : Finset String
  seen_titles : Finset String
  sot : List String
  seen_links : Finset String
  cands : List (Entry × Judgment)
deriving DecidableEq

/-- One iteration of the first-pass loop (lines 1367-1409): a failed call
`continue`s before any state update; otherwise the entry's keys are recorded
and SCRAPE/WATCHLIST decisions are queued for the second pass. -/
def firstPassStep (o1 : Entry → Option Judgment) (s : FirstPassState) (e : Entry) :
    FirstPassState :=
  match o1 e with
  | none => s
  | some j =>
    { seen := if entry_uid e ≠ "" then insert (entry_uid e) s.seen else s.seen
      seen_titles :=
        if normalize_title e.title ≠ "" then insert (normalize_title e.title) s.seen_titles
        else s.seen_titles
      sot := if e.title ≠ "" then s.sot ++ [e.title] else s.sot
      seen_links :=
        if e.link ≠ "" ∧ normalize_url e.link ≠ "" then
          insert (normalize_url e.link) s.seen_links
        else s.seen_links
      cands :=
        if j.decision = ("SCRAPE") ∨ j.decision = ("WATCHLIST") then s.cands ++ [(e, j)]
        else s.cands }

def firstPass (o1 : Entry → Option Judgment) (es : List Entry) (s : FirstPassState) :
    FirstPassState :=
  es.foldl (firstPassStep o1) s

def initFirstPass (st : SeenState) : FirstPassState :=
  ⟨st.seen, st.seen_titles, st.seen_original_titles, st.seen_links, []⟩

/-- The list of records for which a second (full-body) classifier call is
made: exactly the queue built by the first pass (lines 1411-1424). -/
def secondPassCalls (st : SeenState) (recent : List Entry) (o1 : Entry → Option Judgment) :
    List (Entry × Judgment) :=
  (firstPass o1 (finalEntries st recent) (initFirstPass st)).cands

/-- The accumulated original-title log at the end of the run, before the save
truncation (line 1569 applies `[-1000:]` to this list). -/
def accumTitles (st : SeenState) (recent : List Entry) (o1 : Entry → Option Judgment) :
    List String :=
  (firstPass o1 (finalEntries st recent) (initFirstPass st)).sot

structure SendState where
  sent_links : Finset String
  sent_entries : List (Entry × Judgment)
  sent_count : Nat
deriving DecidableEq

/-- One iteration of the second-pass loop (lines 1415-1564): a failed or
raising second call falls back to the first-pass judgment; a sendable
judgment is checked against the run's sent ledger, then dispatched. -/
def secondPassStep (o2 : Entry → Option Judgment) (s : SendState) (p : Entry × Judgment) :
    SendState :=
  let e := p.1
  let j := (o2 e).getD p.2
  if should_send_article_ai_driven j then
    if isDuplicateSent (e, j) s.sent_entries then s
    else
      { sent_links :=
          if e.link ≠ "" ∧ normalize_url e.link ≠ "" then
            insert (normalize_url e.link) s.sent_links
          else s.sent_links
        sent_entries := s.sent_entries ++ [(e, j)]
        sent_count := s.sent_count + 1 }
  else s

def secondPass (o2 : Entry → Option Judgment) (cands : List (Entry × Judgment))
    (s : SendState) : SendState :=
  cands.foldl (secondPassStep o2) s

/-- Python `xs[-n:]`. -/
def pyLastN (n : Nat) (l : List String) : List String := l.drop (l.length - n)

structure RunResult where
  saved : SeenState
  sent_entries : List (Entry × Judgment)
  sent_count : Nat
deriving DecidableEq

/-- `process_articles_ai_driven` (aitest.py 1192-1608) for one run, with the
fetch and the two classifier stages as parameters.  `none` models the early
returns (lines 1213-1215, 1261-1263) where the run ends without saving
state; otherwise the saved state (lines 1566-1572, with the `[-1000:]`
truncation of the original-title log) and the sent ledger are returned. -/
def process_articles_ai_driven (st : SeenState) (recent : List Entry)
    (o1 o2 : Entry → Option Judgment) : Option RunResult :=
  if recent = [] then none
  else
    let cand := candidateEntries st recent
    if cand = [] then none
    else
      let fp := firstPass o1 (batchDedup cand) (initFirstPass st)
      let sp := secondPass o2 fp.cands ⟨st.sent_links, [], 0⟩
      some { saved :=
               { seen := fp.seen
                 seen_titles := fp.seen_titles
                 seen_original_titles := pyLastN 1000 fp.sot
                 seen_links := fp.seen_links
                 sent_links := sp.sent_links }
             sent_entries := sp.sent_entries
             sent_count := sp.sent_count }

/-! ### Concrete sanity checks of the pipeline embedding -/

def entSrv1 : Entry := ⟨("서버 점검 결과 공유 하나"), "", "", 1000⟩

def entSrv2 : Entry := ⟨("서버 점검 결과 공유 둘째"), "", "", 2000⟩

def entSrv3 : Entry := ⟨("서버 점검 결과 공유 셋째"), "", "", 3000⟩

example : batchDedup [entSrv1, entSrv2, entSrv3] = [entSrv3] := by decide

example : batchDedup [entSrv2, entSrv1, entSrv3] = [entSrv3] := by decide

example : batchDedup [entSrv2, entSrv3, entSrv1] = [entSrv3, entSrv1] := by decide

example : batchDedup [entSrv3, entSrv2, entSrv1] = [entSrv3, entSrv2, entSrv1] := by decide

def entKyowonA : Entry := ⟨("교원 해킹 사고, 개인정보 유출"), "", "", 1000⟩

def entKyowonB : Entry := ⟨("교원 랜섬웨어 공격으로 정보유출 발생"), "", "", 2000⟩

example : batchDedup [entKyowonA, entKyowonB] = [entKyowonB] := by decide

example : batchDedup [entKyowonB, entKyowonA] = [entKyowonB, entKyowonA] := by decide

/-! ### Helper lemmas about the character maps -/

theorem toNat_ofNat_valid (n : Nat) (h : n < 0xD800) : (Char.ofNat n).toNat = n := by
  have hv : n.isValidChar := Or.inl h
  rw [Char.ofNat, dif_pos hv]
  rfl

theorem isAsciiUpperC_toNat (c : Char) (h : isAsciiUpperC c = true) :
    65 ≤ c.toNat ∧ c.toNat ≤ 90 := by
  simp only [isAsciiUpperC, Bool.and_eq_true, decide_eq_true_eq] at h
  obtain ⟨h1, h2⟩ := h
  rw [Char.le_def] at h1 h2
  exact ⟨h1, h2⟩

theorem pyLowerChar_toNat_of_upper (c : Char) (h : isAsciiUpperC c = true) :
    (pyLowerChar c).toNat = c.toNat + 32 := by
  obtain ⟨_, h2⟩ := isAsciiUpperC_toNat c h
  rw [pyLowerChar, if_pos h]
  exact toNat_ofNat_valid _ (by omega)

/-- `str.lower()` never produces an ASCII uppercase letter. -/
theorem pyLowerChar_not_upper (c : Char) : isAsciiUpperC (pyLowerChar c) = false := by
  by_cases h : isAsciiUpperC c = true
  · obtain ⟨h1, h2⟩ := isAsciiUpperC_toNat c h
    have ht := pyLowerChar_toNat_of_upper c h
    by_contra hu
    have hu2 : isAsciiUpperC (pyLowerChar c) = true := by
      revert hu
      cases isAsciiUpperC (pyLowerChar c) <;> simp
    obtain ⟨_, h4⟩ := isAsciiUpperC_toNat _ hu2
    omega
  · rw [pyLowerChar, if_neg h]
    revert h
    cases isAsciiUpperC c <;> simp

theorem pyLowerChar_idem (c : Char) : pyLowerChar (pyLowerChar c) = pyLowerChar c := by
  rw [pyLowerChar, if_neg]
  rw [pyLowerChar_not_upper c]
  simp

/-! ### C9: the emptiness check precedes everything -/

/-- C9: for every pair of titles, if either is the empty string then
`is_similar_title` returns `false` for every threshold — including the case
where both are empty, because the emptiness check precedes the exact-equality
check. -/
theorem claim9_empty_title (t1 t2 : String) (thr : ℚ) (h : t1 = "" ∨ t2 = "") :
    is_similar_title t1 t2 thr = false := by
  rw [is_similar_title, if_pos h]

theorem claim9_empty_title_witness :
    ((("" : String) = "" ∨ ("서버 점검" : String) = "") ∧
      is_similar_title ("") ("서버 점검") batchThreshold = false) ∧
    is_similar_title ("") ("") batchThreshold = false :=
  ⟨⟨Or.inl rfl, claim9_empty_title ("") ("서버 점검") batchThreshold (Or.inl rfl)⟩,
    claim9_empty_title ("") ("") batchThreshold (Or.inl rfl)⟩

/-! ### C4: symmetry of the similarity test -/

theorem lenRatioSimilar_symm (n1 n2 : String) :
    lenRatioSimilar n1 n2 = lenRatioSimilar n2 n1 := by
  rw [lenRatioSimilar, lenRatioSimilar]
  by_cases h : n1 = "" ∨ n2 = ""
  · rw [if_pos h, if_pos (Or.symm h)]
  · rw [if_neg h, if_neg (fun hh => h (Or.symm hh))]
    have e1 : ((n1.length : ℤ) - n2.length).natAbs = ((n2.length : ℤ) - n1.length).natAbs := by
      omega
    have e2 : max n1.length n2.length = max n2.length n1.length := Nat.max_comm _ _
    rw [e1, e2]

theorem jaccardGE_symm (k1 k2 : Finset String) (t : ℚ) :
    jaccardGE k1 k2 t = jaccardGE k2 k1 t := by
  rw [jaccardGE, jaccardGE, Finset.union_comm, Finset.inter_comm]

/-- C4: the similarity test is symmetric for all inputs and all thresholds,
through every branch (emptiness, exact equality, the empty-keyword
length-ratio fallback, the named-entity disjointness override, and the
Jaccard comparison). -/
theorem claim4_similarity_symmetric (t1 t2 : String) (thr : ℚ) :
    is_similar_title t1 t2 thr = is_similar_title t2 t1 thr := by
  rw [is_similar_title, is_similar_title]
  by_cases h1 : t1 = "" ∨ t2 = ""
  · rw [if_pos h1, if_pos (Or.symm h1)]
  · have h1s : ¬ (t2 = "" ∨ t1 = "") := fun h => h1 (Or.symm h)
    rw [if_neg h1, if_neg h1s]
    by_cases h2 : t1 = t2
    · rw [if_pos h2, if_pos (Eq.symm h2)]
    · have h2s : ¬ t2 = t1 := fun h => h2 (Eq.symm h)
      rw [if_neg h2, if_neg h2s]
      by_cases h3 : extract_keywords t1 = ∅ ∨ extract_keywords t2 = ∅
      · rw [if_pos h3, if_pos (Or.symm h3), lenRatioSimilar_symm]
      · have h3s : ¬ (extract_keywords t2 = ∅ ∨ extract_keywords t1 = ∅) :=
          fun h => h3 (Or.symm h)
        rw [if_neg h3, if_neg h3s]
        by_cases h4 : extract_product_names t1 ≠ ∅ ∧ extract_product_names t2 ≠ ∅ ∧
            extract_product_names t1 ∩ extract_product_names t2 = ∅
        · rw [if_pos h4, if_pos ⟨h4.2.1, h4.1, by rw [Finset.inter_comm]; exact h4.2.2⟩]
        · rw [if_neg h4,
            if_neg (fun h => h4 ⟨h.2.1, h.1, by rw [Finset.inter_comm]; exact h.2.2⟩),
            jaccardGE_symm]

/-! ### C5: the named-entity disjointness override -/

/-- C5: whenever both keyword sets are non-empty and the extracted
named-entity sets are both non-empty and disjoint, `is_similar_title`
returns `false` regardless of the threshold; in particular on the TP-Link /
Adobe Reader example of the specification. -/
theorem claim5_entity_override :
    (∀ (t1 t2 : String) (thr : ℚ),
      extract_keywords t1 ≠ ∅ → extract_keywords t2 ≠ ∅ →
      extract_product_names t1 ≠ ∅ → extract_product_names t2 ≠ ∅ →
      extract_product_names t1 ∩ extract_product_names t2 = ∅ →
      is_similar_title t1 t2 thr = false) ∧
    is_similar_title ("TP-Link 라우터 보안 업데이트 권고")
      ("Adobe Reader 보안 업데이트 권고") batchThreshold = false := by
  constructor
  · intro t1 t2 thr hk1 hk2 hp1 hp2 hdisj
    have hne : ¬ (t1 = "" ∨ t2 = "") := by
      rintro (rfl | rfl)
      · exact hk1 (by decide)
      · exact hk2 (by decide)
    have hneq : ¬ t1 = t2 := by
      rintro rfl
      rw [Finset.inter_self] at hdisj
      exact hp1 hdisj
    rw [is_similar_title, if_neg hne, if_neg hneq,
      if_neg (by rintro (h | h); exacts [hk1 h, hk2 h]), if_pos ⟨hp1, hp2, hdisj⟩]
  · decide

theorem claim5_entity_override_witness :
    (extract_product_names ("Cisco 보안 취약점") ∩
        extract_product_names ("Vmware 보안 취약점") = ∅) ∧
    is_similar_title ("Cisco 보안 취약점") ("Vmware 보안 취약점")
      (mkRat 1 2) = false :=
  ⟨by decide, claim5_entity_override.1 _ _ _ (by decide) (by decide) (by decide)
    (by decide) (by decide)⟩

/-! ### C10: uppercase company tokens can never fire -/

theorem startsWithL_no_upper (pat hay : List Char) (hs : startsWithL pat hay = true)
    (hhay : ∀ d ∈ hay, isAsciiUpperC d = false) : ∀ c ∈ pat, isAsciiUpperC c = false := by
  induction pat generalizing hay with
  | nil => simp
  | cons p ps ih =>
    cases hay with
    | nil => simp [startsWithL] at hs
    | cons h t =>
      simp only [startsWithL, Bool.and_eq_true, decide_eq_true_eq] at hs
      intro c hc
      rcases List.mem_cons.1 hc with rfl | hcs
      · rw [hs.1]
        exact hhay h (List.mem_cons_self h t)
      · exact ih t hs.2 (fun d hd => hhay d (List.mem_cons_of_mem h hd)) c hcs

theorem containsSub_no_upper (pat hay : List Char)
    (hhay : ∀ d ∈ hay, isAsciiUpperC d = false)
    (c : Char) (hc : c ∈ pat) (hcu : isAsciiUpperC c = true) :
    containsSub pat hay = false := by
  induction hay with
  | nil =>
    rw [containsSub]
    cases pat with
    | nil => exact absurd hc (List.not_mem_nil c)
    | cons p ps => rfl
  | cons h t ih =>
    rw [containsSub]
    have hsw : startsWithL pat (h :: t) = false := by
      cases hval : startsWithL pat (h :: t) with
      | false => rfl
      | true =>
        have := startsWithL_no_upper pat (h :: t) hval hhay c hc
        rw [hcu] at this
        exact absurd this (by simp)
    rw [hsw, ih (fun d hd => hhay d (List.mem_cons_of_mem h hd))]
    rfl

theorem mem_pyLower_not_upper (s : String) :
    ∀ d ∈ (pyLower s).data, isAsciiUpperC d = false := by
  intro d hd
  obtain ⟨x, _, rfl⟩ := List.mem_map.1 hd
  exact pyLowerChar_not_upper x

theorem strContains_pyLower_upper_false (s tok : String) (c : Char) (hc : c ∈ tok.data)
    (hcu : isAsciiUpperC c = true) : strContains (pyLower s) tok = false :=
  containsSub_no_upper tok.data (pyLower s).data (mem_pyLower_not_upper s) c hc hcu

/-- C10: the configured company list contains the uppercase tokens LG, SK and
KT, but both the batch-internal and the sent-ledger company-plus-security
suppression rules test the token for substring membership in the lower-cased
title; for every token containing an uppercase Latin letter the rule can
therefore never fire, on any input. -/
theorem claim10_dead_company_tokens :
    (("LG") ∈ korean_companies ∧ ("SK") ∈ korean_companies ∧ ("KT") ∈ korean_companies) ∧
    ∀ (tok : String), (∃ c ∈ tok.data, isAsciiUpperC c = true) →
      (∀ (e : Entry) (later : List Entry), companyFiresBatch tok e later = false) ∧
      (∀ (e se : Entry), companyFiresSent tok e se = false) := by
  refine ⟨⟨by decide, by decide, by decide⟩, ?_⟩
  rintro tok ⟨c, hc, hcu⟩
  constructor
  · intro e later
    have h := strContains_pyLower_upper_false e.title tok c hc hcu
    simp [companyFiresBatch, h]
  · intro e se
    have h := strContains_pyLower_upper_false e.title tok c hc hcu
    simp [companyFiresSent, h]

theorem claim10_dead_company_tokens_witness :
    (∃ c ∈ ("LG" : String).data, isAsciiUpperC c = true) ∧
    companyFiresBatch ("LG") entKyowonA [entKyowonB] = false ∧
    companyFiresSent ("LG") entKyowonA entKyowonB = false :=
  ⟨by decide, (claim10_dead_company_tokens.2 ("LG") (by decide)).1 entKyowonA [entKyowonB],
    (claim10_dead_company_tokens.2 ("LG") (by decide)).2 entKyowonA entKyowonB⟩

/-! ### C1: order dependence of the batch consolidation -/

/-- C1 (evaluation of the code at the failing input): three pairwise-similar
records with timestamps 1000 < 2000 < 3000.  Presented oldest-first the
consolidator indeed keeps exactly the newest record, but presented
newest-first it keeps all three — an entry is only dropped when a
later-positioned similar entry has a strictly greater timestamp — so the
output is not "exactly the record with T3" regardless of input order. -/
theorem claim1_batch_consolidation_order_dependent :
    is_similar_title entSrv1.title entSrv2.title batchThreshold = true ∧
    is_similar_title entSrv1.title entSrv3.title batchThreshold = true ∧
    is_similar_title entSrv2.title entSrv3.title batchThreshold = true ∧
    entSrv1.ts < entSrv2.ts ∧ entSrv2.ts < entSrv3.ts ∧
    batchDedup [entSrv1, entSrv2, entSrv3] = [entSrv3] ∧
    batchDedup [entSrv3, entSrv2, entSrv1] = [entSrv3, entSrv2, entSrv1] := by decide

/-! ### C3: the CVE rule of the issue correlator -/

/-- C3: against the run's sent ledger, a shared CVE id (case-insensitively)
within the 7-day window always suppresses the candidate, and when the shared
CVE is the only signal the candidate is not suppressed at or beyond the
window. -/
theorem claim3_cve_rule :
    (∀ (cand : Entry × Judgment) (ledger : List (Entry × Judgment)) (s : Entry × Judgment),
      s ∈ ledger →
      upperSet cand.2.cve_ids ∩ upperSet s.2.cve_ids ≠ ∅ →
      (cand.1.ts - s.1.ts).natAbs < 604800 →
      isDuplicateSent cand ledger = true) ∧
    (∀ (cand s : Entry × Judgment),
      cand.1.title ≠ s.1.title →
      is_similar_title cand.1.title s.1.title sentThreshold = false →
      korean_companies.any (fun c => companyFiresSent c cand.1 s.1) = false →
      normProductSet cand.2.products_affected ∩ normProductSet s.2.products_affected = ∅ →
      604800 ≤ (cand.1.ts - s.1.ts).natAbs →
      check_sent_duplicate cand s = false) := by
  constructor
  · intro cand ledger s hmem hinter hwin
    have h1 : upperSet cand.2.cve_ids ≠ ∅ := by
      intro h
      exact hinter (by rw [h, Finset.empty_inter])
    have h2 : upperSet s.2.cve_ids ≠ ∅ := by
      intro h
      exact hinter (by rw [h, Finset.inter_empty])
    have hl1 : cand.2.cve_ids ≠ [] := by
      intro hnil
      apply h1
      rw [upperSet, hnil]
      rfl
    have hl2 : s.2.cve_ids ≠ [] := by
      intro hnil
      apply h2
      rw [upperSet, hnil]
      rfl
    have hcve : cveRuleFires cand.1 cand.2 s.1 s.2 = true := by
      simp only [cveRuleFires, Bool.and_eq_true, decide_eq_true_eq]
      exact ⟨⟨⟨hl1, hl2⟩, hinter⟩, hwin⟩
    have hcheck : check_sent_duplicate cand s = true := by
      simp [check_sent_duplicate, hcve, ite_self]
    rw [isDuplicateSent, List.any_eq_true]
    exact ⟨s, hmem, hcheck⟩
  · intro cand s h1 hsim hcomp hdisj hwin
    have hnw : ¬ ((cand.1.ts - s.1.ts).natAbs < 604800) := by omega
    have hcve : cveRuleFires cand.1 cand.2 s.1 s.2 = false := by
      simp [cveRuleFires, hnw]
    have hprod : productRuleFires cand.1 cand.2 s.1 s.2 = false := by
      simp [productRuleFires, hdisj, hnw]
    simp [check_sent_duplicate, h1, hsim, hcomp, hcve, hprod]

def entCve1 : Entry := ⟨("원격 코드 실행 취약점 경보"), "", "", 259200⟩

def entCve2 : Entry := ⟨("원격 코드 실행 취약점 경보"), "", "", 864000⟩

def entCveSent : Entry := ⟨("새로운 악성코드 유포 정황 포착"), "", "", 0⟩

def judgCve : Judgment := ⟨("SCRAPE"), [("CVE-2024-12345")], [], []⟩

def judgCveSent : Judgment := ⟨("SCRAPE"), [("cve-2024-12345")], [], []⟩

theorem claim3_cve_rule_witness :
    (upperSet judgCve.cve_ids ∩ upperSet judgCveSent.cve_ids ≠ ∅) ∧
    isDuplicateSent (entCve1, judgCve) [(entCveSent, judgCveSent)] = true ∧
    check_sent_duplicate (entCve2, judgCve) (entCveSent, judgCveSent) = false :=
  ⟨by decide,
    claim3_cve_rule.1 (entCve1, judgCve) [(entCveSent, judgCveSent)]
      (entCveSent, judgCveSent) (by decide) (by decide) (by decide),
    claim3_cve_rule.2 (entCve2, judgCve) (entCveSent, judgCveSent) (by decide) (by decide)
      (by decide) (by decide) (by decide)⟩

/-! ### Characterizations of the pipeline folds -/

/-- Selection of the first-pass loop: which `(entry, judgment)` pair (if any)
an entry contributes to the second-pass queue. -/
def candSel (o1 : Entry → Option Judgment) (e : Entry) : Option (Entry × Judgment) :=
  match o1 e with
  | none => none
  | some j =>
    if j.decision = ("SCRAPE") ∨ j.decision = ("WATCHLIST") then some (e, j) else none

theorem firstPass_cands (o1 : Entry → Option Judgment) (es : List Entry)
    (s : FirstPassState) :
    (firstPass o1 es s).cands = s.cands ++ es.filterMap (candSel o1) := by
  induction es generalizing s with
  | nil => simp [firstPass]
  | cons e es ih =>
    rw [firstPass, List.foldl_cons]
    change (firstPass o1 es (firstPassStep o1 s e)).cands = _
    rw [ih, List.filterMap_cons]
    cases h : o1 e with
    | none => simp [firstPassStep, h, candSel]
    | some j =>
      by_cases hd : j.decision = ("SCRAPE") ∨ j.decision = ("WATCHLIST")
      · simp [firstPassStep, h, candSel, hd]
      · simp [firstPassStep, h, candSel, hd]

theorem candSel_eq_some (o1 : Entry → Option Judgment) (e : Entry) (p : Entry × Judgment) :
    candSel o1 e = some p ↔
      p.1 = e ∧ o1 e = some p.2 ∧
        (p.2.decision = ("SCRAPE") ∨ p.2.decision = ("WATCHLIST")) := by
  obtain ⟨pe, pj⟩ := p
  cases h : o1 e with
  | none => simp [candSel, h]
  | some j =>
    by_cases hd : j.decision = ("SCRAPE") ∨ j.decision = ("WATCHLIST")
    · simp only [candSel, h, if_pos hd, Option.some_inj, Prod.mk.injEq]
      constructor
      · rintro ⟨rfl, rfl⟩
        exact ⟨rfl, rfl, hd⟩
      · rintro ⟨rfl, rfl, _⟩
        exact ⟨rfl, rfl⟩
    · simp only [candSel, h, if_neg hd, Option.some_inj, Prod.mk.injEq]
      constructor
      · rintro h2
        exact absurd h2 (by simp)
      · rintro ⟨rfl, rfl, hd2⟩
        exact absurd hd2 hd

theorem firstPass_seen_mem (o1 : Entry → Option Judgment) (es : List Entry)
    (s : FirstPassState) (u : String) :
    u ∈ (firstPass o1 es s).seen ↔
      u ∈ s.seen ∨ ∃ e ∈ es, (o1 e).isSome ∧ entry_uid e = u ∧ u ≠ "" := by
  induction es generalizing s with
  | nil => simp [firstPass]
  | cons e es ih =>
    rw [firstPass, List.foldl_cons]
    change u ∈ (firstPass o1 es (firstPassStep o1 s e)).seen ↔ _
    rw [ih]
    cases h : o1 e with
    | none =>
      simp only [firstPassStep, h]
      constructor
      · rintro (hs | ⟨a, ha, rest⟩)
        · exact Or.inl hs
        · exact Or.inr ⟨a, List.mem_cons_of_mem e ha, rest⟩
      · rintro (hs | ⟨a, ha, hsome, rest⟩)
        · exact Or.inl hs
        · rcases List.mem_cons.1 ha with rfl | ha2
          · rw [h] at hsome
            exact absurd hsome (by simp)
          · exact Or.inr ⟨a, ha2, hsome, rest⟩
    | some j =>
      by_cases hu : entry_uid e ≠ ""
      · simp only [firstPassStep, h, if_pos hu, Finset.mem_insert]
        constructor
        · rintro ((rfl | hs) | ⟨a, ha, rest⟩)
          · exact Or.inr ⟨e, List.mem_cons_self e es, by rw [h]; rfl, rfl, hu⟩
          · exact Or.inl hs
          · exact Or.inr ⟨a, List.mem_cons_of_mem e ha, rest⟩
        · rintro (hs | ⟨a, ha, hsome, hau, hune⟩)
          · exact Or.inl (Or.inr hs)
          · rcases List.mem_cons.1 ha with rfl | ha2
            · exact Or.inl (Or.inl hau.symm)
            · exact Or.inr ⟨a, ha2, hsome, hau, hune⟩
      · rw [not_not] at hu
        simp only [firstPassStep, h, hu, ne_eq, not_true_eq_false, if_false]
        constructor
        · rintro (hs | ⟨a, ha, rest⟩)
          · exact Or.inl hs
          · exact Or.inr ⟨a, List.mem_cons_of_mem e ha, rest⟩
        · rintro (hs | ⟨a, ha, hsome, hau, hune⟩)
          · exact Or.inl hs
          · rcases List.mem_cons.1 ha with rfl | ha2
            · rw [hu] at hau
              exact absurd hau.symm hune
            · exact Or.inr ⟨a, ha2, hsome, hau, hune⟩

theorem firstPass_sot (o1 : Entry → Option Judgment) (es : List Entry) (s : FirstPassState) :
    (firstPass o1 es s).sot = s.sot ++ es.filterMap
      (fun e => if (o1 e).isSome ∧ e.title ≠ "" then some e.title else none) := by
  induction es generalizing s with
  | nil => simp [firstPass]
  | cons e es ih =>
    rw [firstPass, List.foldl_cons]
    change (firstPass o1 es (firstPassStep o1 s e)).sot = _
    rw [ih, List.filterMap_cons]
    cases h : o1 e with
    | none => simp [firstPassStep, h]
    | some j =>
      by_cases ht : e.title ≠ ""
      · simp [firstPassStep, h, ht]
      · simp [firstPassStep, h, ht]

theorem secondPass_sent_fst (o2 : Entry → Option Judgment)
    (cands : List (Entry × Judgment)) (s : SendState) :
    ∀ p ∈ (secondPass o2 cands s).sent_entries,
      p ∈ s.sent_entries ∨ p.1 ∈ cands.map Prod.fst := by
  induction cands generalizing s with
  | nil =>
    intro p hp
    exact Or.inl hp
  | cons q qs ih =>
    intro p hp
    rw [secondPass, List.foldl_cons] at hp
    change p ∈ (secondPass o2 qs (secondPassStep o2 s q)).sent_entries at hp
    rcases ih (secondPassStep o2 s q) p hp with hin | hmap
    · rw [secondPassStep] at hin
      by_cases hsend : should_send_article_ai_driven ((o2 q.1).getD q.2) = true
      · rw [if_pos hsend] at hin
        by_cases hdup : isDuplicateSent (q.1, (o2 q.1).getD q.2) s.sent_entries = true
        · rw [if_pos hdup] at hin
          exact Or.inl hin
        · rw [if_neg hdup] at hin
          simp only at hin
          rcases List.mem_append.1 hin with hl | hr
          · exact Or.inl hl
          · rcases List.mem_singleton.1 hr with rfl
            exact Or.inr (by simp)
      · rw [if_neg hsend] at hin
        exact Or.inl hin
    · right
      rw [List.map_cons]
      exact List.mem_cons_of_mem q.1 hmap

/-! ### C7: gating of the second classifier call -/

/-- C7: a second (full-body) classifier call is made for a record exactly when
it survived to the final batch, its first-pass call returned a judgment, and
that judgment's decision is SCRAPE or WATCHLIST; in particular a SKIP (or any
other) first-pass decision never triggers a second call. -/
theorem claim7_gating (st : SeenState) (recent : List Entry)
    (o1 : Entry → Option Judgment) (e : Entry) (j : Judgment) :
    (e, j) ∈ secondPassCalls st recent o1 ↔
      e ∈ finalEntries st recent ∧ o1 e = some j ∧
        (j.decision = ("SCRAPE") ∨ j.decision = ("WATCHLIST")) := by
  rw [secondPassCalls, firstPass_cands]
  simp only [initFirstPass, List.nil_append, List.mem_filterMap]
  constructor
  · rintro ⟨a, ha, hsel⟩
    obtain ⟨he, ho, hd⟩ := (candSel_eq_some o1 a (e, j)).1 hsel
    simp only at he ho hd
    rw [← he] at ha ho
    exact ⟨ha, ho, hd⟩
  · rintro ⟨hmem, ho, hd⟩
    exact ⟨e, hmem, (candSel_eq_some o1 e (e, j)).2 ⟨rfl, ho, hd⟩⟩

def emptySeen : SeenState := ⟨∅, ∅, [], ∅, ∅⟩

def judgScrape : Judgment := ⟨("SCRAPE"), [], [], []⟩

def oracleScrape : Entry → Option Judgment := fun _ => some judgScrape

def entPlain : Entry := ⟨("첫 기사 제목"), "", "", 10⟩

theorem claim7_gating_witness :
    (entPlain, judgScrape) ∈ secondPassCalls emptySeen [entPlain] oracleScrape :=
  (claim7_gating emptySeen [entPlain] oracleScrape entPlain judgScrape).2
    ⟨by decide, rfl, Or.inl rfl⟩

/-! ### C2: first-pass failure skips the seen-state update -/

def oracleFail : Entry → Option Judgment := fun _ => none

def entFail : Entry := ⟨("테스트 기사 하나"), "", "", 100⟩

def resFail : RunResult := ⟨⟨∅, ∅, [], ∅, ∅⟩, [], 0⟩

/-- C2 (counterexample): a run over a single record whose first-pass call
fails.  The record is indeed excluded from notification, but contrary to the
claim none of its keys are persisted: the saved seen-state is empty. -/
theorem claim2_counterexample :
    process_articles_ai_driven emptySeen [entFail] oracleFail oracleFail = some resFail ∧
    entry_uid entFail ∉ resFail.saved.seen ∧
    entFail.title ∉ resFail.saved.seen_original_titles ∧
    normalize_title entFail.title ∉ resFail.saved.seen_titles ∧
    resFail.sent_entries = [] := by decide

/-- C2 (amended): a record whose first-pass classification call fails is
excluded from notification AND none of its keys are added to the persisted
seen-state — the `continue` at line 1381 precedes the state update at lines
1393-1403 — so (when no other record of the batch shares its uid or title)
its uid and original title are absent from the saved state. -/
theorem claim2_amended (st : SeenState) (recent : List Entry)
    (o1 o2 : Entry → Option Judgment) (e : Entry) (res : RunResult)
    (hres : process_articles_ai_driven st recent o1 o2 = some res)
    (hmem : e ∈ finalEntries st recent) (hfail : o1 e = none)
    (huid : entry_uid e ∉ st.seen)
    (huniq : ∀ e2 ∈ finalEntries st recent, entry_uid e2 = entry_uid e → e2 = e)
    (htitle : e.title ∉ st.seen_original_titles)
    (htuniq : ∀ e2 ∈ finalEntries st recent, e2.title = e.title → e2 = e) :
    entry_uid e ∉ res.saved.seen ∧
    e.title ∉ res.saved.seen_original_titles ∧
    ∀ p ∈ res.sent_entries, p.1 ≠ e := by
  simp only [process_articles_ai_driven] at hres
  split at hres
  · exact absurd hres (by simp)
  · split at hres
    · exact absurd hres (by simp)
    · rw [Option.some_inj] at hres
      subst hres
      refine ⟨?_, ?_, ?_⟩
      · simp only
        rw [firstPass_seen_mem]
        push_neg
        refine ⟨huid, ?_⟩
        intro e2 hm2 hsome heq
        have he2 := huniq e2 hm2 heq
        subst he2
        rw [hfail] at hsome
        exact absurd hsome (by simp)
      · simp only
        intro hin
        have hin2 : e.title ∈ (firstPass o1 (batchDedup (candidateEntries st recent))
            (initFirstPass st)).sot := (List.drop_suffix _ _).subset hin
        rw [firstPass_sot] at hin2
        rcases List.mem_append.1 hin2 with hl | hr
        · exact htitle hl
        · obtain ⟨e2, hm2, hif⟩ := List.mem_filterMap.1 hr
          by_cases hc : (o1 e2).isSome ∧ e2.title ≠ ""
          · rw [if_pos hc] at hif
            have ht2 : e2.title = e.title := Option.some_inj.1 hif
            have he2 := htuniq e2 hm2 ht2
            subst he2
            rw [hfail] at hc
            exact absurd hc.1 (by simp)
          · rw [if_neg hc] at hif
            exact absurd hif (by simp)
      · simp only
        intro p hp hpe
        rcases secondPass_sent_fst o2 _ _ p hp with hin | hmap
        · exact absurd hin (List.not_mem_nil p)
        · obtain ⟨q, hq, hq1⟩ := List.mem_map.1 hmap
          obtain ⟨a, _, hsel⟩ := List.mem_filterMap.1
            (by rw [firstPass_cands] at hq; simpa [initFirstPass] using hq)
          obtain ⟨he, ho, _⟩ := (candSel_eq_some o1 a q).1 hsel
          rw [← he, hq1, hpe, hfail] at ho
          exact absurd ho (by simp)

def entFail2 : Entry := ⟨("둘째 기사 제목"), "", "", 20⟩

theorem claim2_amended_witness :
    entry_uid entFail2 ∉ resFail.saved.seen ∧
    entFail2.title ∉ resFail.saved.seen_original_titles ∧
    ∀ p ∈ resFail.sent_entries, p.1 ≠ entFail2 :=
  claim2_amended emptySeen [entFail2] oracleFail oracleFail entFail2 resFail
    (by decide) (by decide) rfl (by decide) (by decide) (by decide) (by decide)

/-! ### C6: the bounded original-title log -/

theorem pyLastN_length (n : Nat) (l : List String) : (pyLastN n l).length = min n l.length := by
  simp only [pyLastN, List.length_drop]
  omega

theorem pyLastN_suffix (n : Nat) (l : List String) : pyLastN n l <:+ l :=
  List.drop_suffix _ _

set_option maxRecDepth 8192 in
/-- C6: whenever a run saves state, the saved original-title log has at most
1000 entries and is exactly the final suffix of the accumulated log (the
loaded log plus the titles appended during the run): only the oldest entries
are dropped. -/
theorem claim6_title_cap (st : SeenState) (recent : List Entry)
    (o1 o2 : Entry → Option Judgment) (res : RunResult)
    (hres : process_articles_ai_driven st recent o1 o2 = some res) :
    res.saved.seen_original_titles.length ≤ 1000 ∧
    res.saved.seen_original_titles.length = min 1000 (accumTitles st recent o1).length ∧
    res.saved.seen_original_titles <:+ accumTitles st recent o1 ∧
    ∃ appended, accumTitles st recent o1 = st.seen_original_titles ++ appended := by
  have hsaved : res.saved.seen_original_titles = pyLastN 1000 (accumTitles st recent o1) := by
    simp only [process_articles_ai_driven] at hres
    split at hres
    · exact absurd hres (by simp)
    · split at hres
      · exact absurd hres (by simp)
      · rw [Option.some_inj] at hres
        subst hres
        unfold accumTitles finalEntries
        rfl
  refine ⟨?_, ?_, ?_, ?_⟩
  · rw [hsaved, pyLastN_length]
    exact Nat.min_le_left _ _
  · rw [hsaved, pyLastN_length]
  · rw [hsaved]
    exact pyLastN_suffix _ _
  · rw [accumTitles, firstPass_sot]
    exact ⟨_, rfl⟩

def judgSkip : Judgment := ⟨("SKIP"), [], [], []⟩

def oracleSkip : Entry → Option Judgment := fun _ => some judgSkip

def entPlain2 : Entry := ⟨("셋째 기사 제목"), "", "", 30⟩

def resSkip : RunResult :=
  ⟨⟨{("셋째 기사 제목")}, {("셋째기사제목")}, [("셋째 기사 제목")], ∅, ∅⟩, [], 0⟩

theorem claim6_title_cap_witness :
    (process_articles_ai_driven emptySeen [entPlain2] oracleSkip oracleSkip = some resSkip) ∧
    resSkip.saved.seen_original_titles.length ≤ 1000 ∧
    resSkip.saved.seen_original_titles.length =
      min 1000 (accumTitles emptySeen [entPlain2] oracleSkip).length ∧
    resSkip.saved.seen_original_titles <:+ accumTitles emptySeen [entPlain2] oracleSkip ∧
    ∃ appended, accumTitles emptySeen [entPlain2] oracleSkip =
      emptySeen.seen_original_titles ++ appended :=
  ⟨by decide, claim6_title_cap emptySeen [entPlain2] oracleSkip oracleSkip resSkip (by decide)⟩

/-! ### C8: purity and idempotence of the normalizers -/

theorem normalize_title_idem (x : String) :
    normalize_title (normalize_title x) = normalize_title x := by
  rw [normalize_title, normalize_title]
  apply congrArg
  have h1 : ∀ a ∈ (x.data.map pyLowerChar).filter isWordCharC, pyLowerChar a = a := by
    intro a ha
    have ha2 : a ∈ x.data.map pyLowerChar := List.mem_of_mem_filter ha
    obtain ⟨b, _, rfl⟩ := List.mem_map.1 ha2
    exact pyLowerChar_idem b
  have hmap : ((x.data.map pyLowerChar).filter isWordCharC).map pyLowerChar =
      (x.data.map pyLowerChar).filter isWordCharC := by
    rw [List.map_congr_left h1]
    exact List.map_id' _
  rw [hmap, List.filter_filter]
  simp only [Bool.and_self]

/-- C8 (counterexample): `normalize_url` is not idempotent.  On a host with a
doubled mobile prefix each application strips one more prefix. -/
theorem claim8_counterexample :
    normalize_url ("http://m.m.com") = ("http://m.com") ∧
    normalize_url (normalize_url ("http://m.m.com")) = ("http://com") ∧
    normalize_url (normalize_url ("http://m.m.com")) ≠ normalize_url ("http://m.m.com") := by
  decide

/-- C8 (amended): `normalize_title` is pure and idempotent for every string,
and `normalize_url` is insensitive to query-parameter order; but
`normalize_url` is idempotent only when re-normalization strips no further
mobile prefix (witnessed here on a single-prefix host), not for every string
(see the counterexample). -/
theorem claim8_amended :
    (∀ x : String, normalize_title (normalize_title x) = normalize_title x) ∧
    normalize_url ("http://example.com/news?id=7&b=2&a=1") =
      normalize_url ("http://example.com/news?id=7&a=1&b=2") ∧
    normalize_url (normalize_url ("http://m.example.com/news?id=7")) =
      normalize_url ("http://m.example.com/news?id=7") :=
  ⟨normalize_title_idem, by decide, by decide⟩

end Aitest
